import Mathlib

/-!
Verification of the pinepods-admin form/analytics server.

The Go services are shallowly embedded in Lean: pure computations become
Lean functions, the SQL tables become lists of row structures, and each
handler or service method becomes an explicit state-passing function.
Machine integers are modelled as `Nat` with reduction mod `2 ^ 32` where
the hash arithmetic overflows. Timestamps are modelled as `Int` seconds.
-/

namespace PinepodsAdmin

/-! ## Bytes, hex encoding, UTF-8 (Go `encoding/hex`, `[]byte(string)`) -/

/-- Lowercase hex digit for a value below 16, as Go `encoding/hex` emits. -/
def hexDigit (n : Nat) : Char :=
  if n < 10 then Char.ofNat (48 + n) else Char.ofNat (87 + n)

/-- Lowercase hex encoding of a byte list, as Go `hex.EncodeToString`. -/
def hexEncode (bs : List Nat) : String :=
  String.mk (bs.foldr (fun b acc => hexDigit (b / 16) :: hexDigit (b % 16) :: acc) [])

/-- UTF-8 encoding of a single code point, as Go string-to-byte conversion. -/
def utf8Bytes (c : Nat) : List Nat :=
  if c < 128 then [c]
  else if c < 2048 then [192 ||| (c >>> 6), 128 ||| (c &&& 63)]
  else if c < 65536 then
    [224 ||| (c >>> 12), 128 ||| ((c >>> 6) &&& 63), 128 ||| (c &&& 63)]
  else
    [240 ||| (c >>> 18), 128 ||| ((c >>> 12) &&& 63),
     128 ||| ((c >>> 6) &&& 63), 128 ||| (c &&& 63)]

/-- Byte list of a string under UTF-8, as Go `[]byte(s)`. -/
def strBytes (s : String) : List Nat :=
  s.data.foldr (fun c acc => utf8Bytes c.toNat ++ acc) []

/-! ## SHA-256 (Go `crypto/sha256`, FIPS 180-4) -/

/-- Reduction to a 32-bit word. -/
def w32 (n : Nat) : Nat := n % 4294967296

/-- Right rotation of a 32-bit word by `n` bits. -/
def rotr (n x : Nat) : Nat := w32 ((x >>> n) ||| (x <<< (32 - n)))

/-- SHA-256 choice function. -/
def ch (x y z : Nat) : Nat := (x &&& y) ^^^ ((x ^^^ 4294967295) &&& z)

/-- SHA-256 majority function. -/
def maj (x y z : Nat) : Nat := (x &&& y) ^^^ (x &&& z) ^^^ (y &&& z)

/-- SHA-256 big sigma 0. -/
def bigSigma0 (x : Nat) : Nat := rotr 2 x ^^^ rotr 13 x ^^^ rotr 22 x

/-- SHA-256 big sigma 1. -/
def bigSigma1 (x : Nat) : Nat := rotr 6 x ^^^ rotr 11 x ^^^ rotr 25 x

/-- SHA-256 small sigma 0. -/
def smallSigma0 (x : Nat) : Nat := rotr 7 x ^^^ rotr 18 x ^^^ (x >>> 3)

/-- SHA-256 small sigma 1. -/
def smallSigma1 (x : Nat) : Nat := rotr 17 x ^^^ rotr 19 x ^^^ (x >>> 10)

/-- SHA-256 round constants, written in decimal. -/
def sha256K : List Nat :=
  [1116352408, 1899447441, 3049323471, 3921009573, 961987163,
   1508970993, 2453635748, 2870763221, 3624381080, 310598401,
   607225278, 1426881987, 1925078388, 2162078206, 2614888103,
   3248222580, 3835390401, 4022224774, 264347078, 604807628,
   770255983, 1249150122, 1555081692, 1996064986, 2554220882,
   2821834349, 2952996808, 3210313671, 3336571891, 3584528711,
   113926993, 338241895, 666307205, 773529912, 1294757372,
   1396182291, 1695183700, 1986661051, 2177026350, 2456956037,
   2730485921, 2820302411, 3259730800, 3345764771, 3516065817,
   3600352804, 4094571909, 275423344, 430227734, 506948616,
   659060556, 883997877, 958139571, 1322822218, 1537002063,
   1747873779, 1955562222, 2024104815, 2227730452, 2361852424,
   2428436474, 2756734187, 3204031479, 3329325298]

/-- Working state of the SHA-256 compression function. -/
structure Sha256State where
  a : Nat
  b : Nat
  c : Nat
  d : Nat
  e : Nat
  f : Nat
  g : Nat
  h : Nat
deriving DecidableEq, Repr

/-- SHA-256 initial hash value, written in decimal. -/
def sha256Init : Sha256State :=
  ⟨1779033703, 3144134277, 1013904242, 2773480762,
   1359893119, 2600822924, 528734635, 1541459225⟩

/-- One round of the SHA-256 compression function. -/
def compressStep (st : Sha256State) (kw : Nat × Nat) : Sha256State :=
  let t1 := w32 (st.h + bigSigma1 st.e + ch st.e st.f st.g + kw.1 + kw.2)
  let t2 := w32 (bigSigma0 st.a + maj st.a st.b st.c)
  ⟨w32 (t1 + t2), st.a, st.b, st.c, w32 (st.d + t1), st.e, st.f, st.g⟩

/-- Big-endian 32-bit words from a byte list, four bytes per word. -/
def toWords : List Nat → List Nat
  | b0 :: b1 :: b2 :: b3 :: rest => (((b0 * 256 + b1) * 256 + b2) * 256 + b3) :: toWords rest
  | _ => []

/-- One extension step of the SHA-256 message schedule. -/
def scheduleStep (ws : List Nat) : List Nat :=
  let n := ws.length
  ws ++ [w32 (smallSigma1 (ws.getD (n - 2) 0) + ws.getD (n - 7) 0 +
              smallSigma0 (ws.getD (n - 15) 0) + ws.getD (n - 16) 0)]

/-- Full 64-entry SHA-256 message schedule from the 16 block words. -/
def schedule (ws : List Nat) : List Nat :=
  (List.range 48).foldl (fun acc _ => scheduleStep acc) ws

/-- Processing of one 64-byte block, updating the chaining state. -/
def processBlock (st : Sha256State) (block : List Nat) : Sha256State :=
  let t := (sha256K.zip (schedule (toWords block))).foldl compressStep st
  ⟨w32 (st.a + t.a), w32 (st.b + t.b), w32 (st.c + t.c), w32 (st.d + t.d),
   w32 (st.e + t.e), w32 (st.f + t.f), w32 (st.g + t.g), w32 (st.h + t.h)⟩

/-- Big-endian byte list of width `k` for a natural number. -/
def beBytes : Nat → Nat → List Nat
  | 0, _ => []
  | k + 1, n => beBytes k (n / 256) ++ [n % 256]

/-- Splitting a byte list into 64-byte chunks, with a fuel argument that
is always at least the number of chunks when called from `chunks64`. -/
def chunksAux : Nat → List Nat → List (List Nat)
  | 0, _ => []
  | _, [] => []
  | fuel + 1, l => l.take 64 :: chunksAux fuel (l.drop 64)

/-- Splitting a byte list into 64-byte chunks. -/
def chunks64 (l : List Nat) : List (List Nat) :=
  chunksAux l.length l

/-- SHA-256 padding of a message, as FIPS 180-4. -/
def sha256Pad (m : List Nat) : List Nat :=
  m ++ 128 :: List.replicate ((64 + 55 - m.length % 64) % 64) 0 ++ beBytes 8 (8 * m.length)

/-- Serialization of the final chaining state into the 32 digest bytes. -/
def digestBytes (st : Sha256State) : List Nat :=
  beBytes 4 st.a ++ beBytes 4 st.b ++ beBytes 4 st.c ++ beBytes 4 st.d ++
  beBytes 4 st.e ++ beBytes 4 st.f ++ beBytes 4 st.g ++ beBytes 4 st.h

/-- SHA-256 digest of a byte list. -/
def sha256Bytes (m : List Nat) : List Nat :=
  digestBytes ((chunks64 (sha256Pad m)).foldl processBlock sha256Init)

/-- Hex-encoded SHA-256 of a string, as the Go code computes `ip_hash`. -/
def sha256Hex (s : String) : String := hexEncode (sha256Bytes (strBytes s))

/-! ## HMAC-SHA256 (Go `crypto/hmac`) -/

/-- HMAC-SHA256 of a message under a key, as Go `hmac.New(sha256.New, key)`. -/
def hmacSha256 (key msg : List Nat) : List Nat :=
  let k0 := if key.length > 64 then sha256Bytes key else key
  let k := k0 ++ List.replicate (64 - k0.length) 0
  sha256Bytes ((k.map (fun b => b ^^^ 92)) ++
    sha256Bytes ((k.map (fun b => b ^^^ 54)) ++ msg))

set_option maxRecDepth 100000 in
/-- Sanity check against the FIPS 180-4 test vector for the string abc. -/
theorem sha256_abc_vector :
    sha256Hex "abc" =
      "ba7816bf8f01cfea414140de5dae2223b00361a396177a9cb410ff61f20015ad" := by
  decide

/-! ## Data model (internal/models/models.go, internal/config) -/

/-- JSON-decoded dynamic value, the model of the Go empty-interface
values held by a submission data map. -/
inductive Value where
  | str (s : String)
  | num (n : Int)
  | boolean (b : Bool)
  | null
deriving DecidableEq, Repr

/-- Lookup in a decoded JSON object, the model of Go map indexing. -/
def dataLookup (d : List (String × Value)) (k : String) : Option Value :=
  (d.find? (fun p => p.1 == k)).map (fun p => p.2)

/-- FormSubmission, as `models.FormSubmission`. -/
structure FormSubmission where
  id : String
  formId : String
  data : List (String × Value)
  ipAddress : String
  userAgent : String
  submittedAt : Int
  processed : Bool
  processedAt : Option Int
  error : String
deriving DecidableEq, Repr

/-- ActionResult, as `models.ActionResult`. -/
structure ActionResult where
  actionType : String
  success : Bool
  message : String
  error : String
deriving DecidableEq, Repr

/-- ProcessingResult, as `models.ProcessingResult`. -/
structure ProcessingResult where
  submissionId : String
  formId : String
  success : Bool
  actions : List ActionResult
  processedAt : Int
deriving DecidableEq, Repr

/-- SubmissionRequest, as `models.SubmissionRequest`. -/
structure SubmissionRequest where
  formId : String
  data : List (String × Value)
deriving DecidableEq, Repr

/-- ErrorResponse, the shared error envelope of `models.ErrorResponse`. -/
structure ErrorResponse where
  success : Bool
  error : String
  code : Nat
deriving DecidableEq, Repr

/-- FieldConfig, as `config.FieldConfig`. -/
structure FieldConfig where
  name : String
  fieldType : String
  required : Bool
  validation : String
  label : String
deriving DecidableEq, Repr

/-- ActionConfig, as `config.ActionConfig`. -/
structure ActionConfig where
  actionType : String
  config : List (String × Value)
deriving DecidableEq, Repr

/-- FormEmailConfig, as `config.FormEmailConfig`. -/
structure FormEmailConfig where
  enabled : Bool
  template : String
  subject : String
  sendConfirmation : Bool
deriving DecidableEq, Repr

/-- FormConfig, as `config.FormConfig`. -/
structure FormConfig where
  name : String
  description : String
  fields : List FieldConfig
  actions : List ActionConfig
  email : FormEmailConfig
deriving DecidableEq, Repr

/-- The pieces of `config.Config` the verified services read: the form
registry (`Forms.Forms`) and the analytics shared secret. The secret field
is Modelled from the spec: the `Analytics` config section referenced by
the analytics service is not present under the sources, and the spec calls
it a process-wide shared secret used for the heartbeat HMAC. -/
structure Config where
  forms : List (String × FormConfig)
  analyticsSecret : String

/-- Form lookup in the registry, as `GetFormConfig` / `cfg.Forms.Forms[id]`. -/
def lookupForm (cfg : Config) (formId : String) : Option FormConfig :=
  (cfg.forms.find? (fun p => p.1 == formId)).map (fun p => p.2)

/-! ## Validator (`validateSubmission` in the form service) -/

/-- Test performed by `validateSubmission` for one required field: the key
is absent from the data map, or the dynamic value equals the empty string
(which in Go is true exactly when the value is the string of length zero). -/
def fieldMissing (d : List (String × Value)) (n : String) : Bool :=
  match dataLookup d n with
  | none => true
  | some v => v == Value.str ""

/-- Validation of a submission against a form schema, returning the error
message for the first missing or empty required field, as
`validateSubmission`. -/
def validateSubmission (sub : FormSubmission) (fc : FormConfig) : Option String :=
  fc.fields.findSome? (fun f =>
    if f.required && fieldMissing sub.data f.name then
      some ("required field \x27" ++ f.name ++ "\x27 is missing")
    else none)

/-! ## Action Pipeline (internal/services/action_service.go) -/

/-- Outcome oracles for the two actions whose result depends on outbound
network calls (Google Play enrollment and SMTP email); the pipeline is
verified for every possible behaviour of these collaborators. -/
structure ActionEnv where
  googlePlay : FormSubmission → ActionConfig → ActionResult
  sendEmail : FormSubmission → ActionConfig → ActionResult

/-- Result of the webhook stub, as `sendWebhook`. -/
def webhookResult : ActionResult :=
  ⟨"webhook", false, "Webhook functionality coming soon", "Webhook action not yet implemented"⟩

/-- Result of the log action, as `logAction`: always a success. -/
def logResult : ActionResult :=
  ⟨"log", true, "Action logged successfully", ""⟩

/-- Dispatch of one configured action by its type string, as
`executeAction`; an unrecognized type yields a failed outcome with a
descriptive error. -/
def executeAction (env : ActionEnv) (sub : FormSubmission) (ac : ActionConfig) : ActionResult :=
  match ac.actionType with
  | "google_play_add_tester" => env.googlePlay sub ac
  | "send_email" => env.sendEmail sub ac
  | "webhook" => webhookResult
  | "log" => logResult
  | t => ⟨t, false, "Unknown action type", "Action type \x27" ++ t ++ "\x27 is not supported"⟩

/-- Sequential execution of all configured actions, as `ProcessActions`:
outcomes are appended in order and the aggregate success flag is cleared
by any failure. -/
def ProcessActions (env : ActionEnv) (sub : FormSubmission) (fc : FormConfig) (now : Int) :
    ProcessingResult :=
  fc.actions.foldl
    (fun r ac =>
      let a := executeAction env sub ac
      { r with
        actions := r.actions ++ [a]
        success := if a.success then r.success else false })
    ⟨sub.id, sub.formId, true, [], now⟩

/-! ## Submission Store and `ProcessSubmission` / `ReprocessSubmission` -/

/-- The `form_submissions` table, one row per stored submission. -/
abbrev SubmissionDB := List FormSubmission

/-- The on-disk JSON backups, keyed by submission date, form id and
submission id as in `storeSubmissionFile`. -/
abbrev BackupFiles := List (Int × String × String)

/-- Per-row effect of the SQL UPDATE in `updateSubmission`: a row whose id
matches gets the three mutable columns rewritten, any other row is
untouched. -/
def updateRow (sub : FormSubmission) (r : FormSubmission) : FormSubmission :=
  if r.id == sub.id then
    { r with processed := sub.processed, processedAt := sub.processedAt, error := sub.error }
  else r

/-- Row update of `updateSubmission`: the SQL UPDATE rewrites the three
mutable columns of every row whose id matches and no other column or row;
the statement reports no error when zero rows match. -/
def updateSubmission (db : SubmissionDB) (sub : FormSubmission) :
    Except String SubmissionDB :=
  Except.ok (db.map (updateRow sub))

/-- Concatenation of the error strings of the failing actions, built by
`ProcessSubmission` and `ReprocessSubmission`. -/
def concatErrors (actions : List ActionResult) : String :=
  actions.foldl
    (fun acc a => if !a.success && a.error != "" then acc ++ a.error ++ "; " else acc) ""

/-- Folding of a pipeline result back into the submission, as the status
update step shared by `ProcessSubmission` and `ReprocessSubmission`. -/
def applyResult (sub : FormSubmission) (result : ProcessingResult) : FormSubmission :=
  let sub1 := { sub with processed := result.success, processedAt := some result.processedAt }
  if result.success then sub1 else { sub1 with error := concatErrors result.actions }

/-- End-to-end processing of one submission, as `ProcessSubmission`:
assign an id when absent, look up the form, validate, insert the row, run
the pipeline, fold the result back into the row, and write the backup
file. Validation failure returns before any row or file is written. -/
def ProcessSubmission (env : ActionEnv) (cfg : Config) (newId : String) (now : Int)
    (sub : FormSubmission) (db : SubmissionDB) (files : BackupFiles) :
    Except String (ProcessingResult × FormSubmission) × SubmissionDB × BackupFiles :=
  let sub0 := if sub.id == "" then { sub with id := newId } else sub
  match lookupForm cfg sub0.formId with
  | none => (Except.error ("form \x27" ++ sub0.formId ++ "\x27 not found"), db, files)
  | some fc =>
    match validateSubmission sub0 fc with
    | some msg => (Except.error ("validation failed: " ++ msg), db, files)
    | none =>
      let db1 : SubmissionDB := db ++ [sub0]
      let result := ProcessActions env sub0 fc now
      let sub1 := applyResult sub0 result
      let db2 := (updateSubmission db1 sub1).toOption.getD db1
      let files1 : BackupFiles := files ++ [(sub1.submittedAt, sub1.formId, sub1.id)]
      (Except.ok (result, sub1), db2, files1)

/-- Administrative reprocessing, as `ReprocessSubmission`: reset the
status fields, re-run every configured action, fold the new result back
in, and rewrite the row. -/
def ReprocessSubmission (env : ActionEnv) (cfg : Config) (now : Int)
    (sub : FormSubmission) (db : SubmissionDB) :
    Except String (ProcessingResult × FormSubmission × SubmissionDB) :=
  match lookupForm cfg sub.formId with
  | none => Except.error ("form \x27" ++ sub.formId ++ "\x27 not found")
  | some fc =>
    let sub0 := { sub with processed := false, processedAt := none, error := "" }
    let result := ProcessActions env sub0 fc now
    let sub1 := applyResult sub0 result
    match updateSubmission db sub1 with
    | Except.error e => Except.error ("failed to update submission: " ++ e)
    | Except.ok db1 => Except.ok (result, sub1, db1)

/-! ## Analytics Register (the analytics service) -/

/-- AnalyticsRequest, as `models.AnalyticsRequest`. -/
structure AnalyticsRequest where
  serverHash : String
  version : String
  signature : String
deriving DecidableEq, Repr

/-- One row of the `pinepods_analytics` table, as
`models.PinepodsAnalytics`. -/
structure AnalyticsRecord where
  id : String
  serverHash : String
  version : String
  firstSeen : Int
  lastSeen : Int
  ipHash : String
deriving DecidableEq, Repr

/-- The `pinepods_analytics` table. -/
abbrev AnalyticsDB := List AnalyticsRecord

/-- Aggregated analytics, as `models.AnalyticsSummary`; the version
breakdown is the counting function the GROUP BY query computes. -/
structure AnalyticsSummary where
  totalServers : Nat
  activeServers : Nat
  versionBreakdown : String → Nat
  lastUpdated : Int

/-- Row lookup by server hash, as the SELECT in `ProcessAnalytics`. -/
def lookupServer (db : AnalyticsDB) (h : String) : Option AnalyticsRecord :=
  db.find? (fun r => r.serverHash == h)

/-- Expected signature of a heartbeat: the hex HMAC-SHA256 of
`serverHash ++ version ++ sourceIp` under the shared secret, as computed
inside `VerifySignature`. -/
def expectedSignature (secret : String) (req : AnalyticsRequest) (ip : String) : String :=
  hexEncode (hmacSha256 (strBytes secret) (strBytes (req.serverHash ++ req.version ++ ip)))

/-- Signature verification, as `VerifySignature`: recompute the HMAC and
compare byte-for-byte with the caller-supplied signature (the Go code
uses the constant-time comparison, whose result is byte equality). -/
def VerifySignature (secret : String) (req : AnalyticsRequest) (ip : String) : Bool :=
  req.signature == expectedSignature secret req ip

/-- Per-row effect of the heartbeat UPDATE: a row whose server hash
matches gets only the version and last-seen columns rewritten, any other
row is untouched. -/
def heartbeatUpdateRow (req : AnalyticsRequest) (now : Int) (r : AnalyticsRecord) :
    AnalyticsRecord :=
  if r.serverHash == req.serverHash then
    { r with version := req.version, lastSeen := now }
  else r

/-- Heartbeat ingestion, as `ProcessAnalytics`: hash the source address
and upsert keyed on the server hash. -/
def ProcessAnalytics (req : AnalyticsRequest) (ip : String) (now : Int) (newId : String)
    (db : AnalyticsDB) : AnalyticsDB :=
  let ipHash := sha256Hex ip
  match lookupServer db req.serverHash with
  | none => db ++ [⟨newId, req.serverHash, req.version, now, now, ipHash⟩]
  | some _ => db.map (heartbeatUpdateRow req now)

/-- Summary computation, as `GetAnalyticsSummary`: total row count,
active row count over the fixed 30-day window, and the per-version counts
among the active rows. -/
def GetAnalyticsSummary (now : Int) (db : AnalyticsDB) : AnalyticsSummary :=
  let activeThreshold := now - 30 * 86400
  { totalServers := db.length
    activeServers := (db.filter (fun r => activeThreshold < r.lastSeen)).length
    versionBreakdown := fun v =>
      ((db.filter (fun r => activeThreshold < r.lastSeen)).filter
        (fun r => r.version == v)).length
    lastUpdated := now }

/-- Retention sweep, as `CleanupInactiveServers`: delete every row whose
last-seen time is strictly before now minus the threshold in days, and
report the number of rows deleted. -/
def CleanupInactiveServers (daysThreshold : Nat) (now : Int) (db : AnalyticsDB) :
    Nat × AnalyticsDB :=
  let cutoff := now - (daysThreshold : Int) * 86400
  ((db.filter (fun r => r.lastSeen < cutoff)).length,
   db.filter (fun r => !(decide (r.lastSeen < cutoff))))

/-! ## HTTP handlers (internal/handlers/forms.go, analytics.go) -/

/-- HTTP reply of the submit-forms endpoint: either the success body of
`models.SubmissionResponse` or the shared error envelope. -/
inductive SubmitReply where
  | okSubmission (id : String) (timestamp : Int)
  | failure (e : ErrorResponse)
deriving DecidableEq, Repr

/-- The submit-form handler, as `submitForm`: build the submission from
the parsed request and client metadata, run `ProcessSubmission`, and
answer 200 on success or a 500 error envelope when processing fails. -/
def submitForm (env : ActionEnv) (cfg : Config) (newId : String) (now : Int)
    (req : SubmissionRequest) (ip ua : String) (db : SubmissionDB) (files : BackupFiles) :
    SubmitReply × SubmissionDB × BackupFiles :=
  let sub : FormSubmission :=
    ⟨"", req.formId, req.data, ip, ua, now, false, none, ""⟩
  match ProcessSubmission env cfg newId now sub db files with
  | (Except.error msg, db1, files1) =>
    (SubmitReply.failure ⟨false, "Failed to process submission: " ++ msg, 500⟩, db1, files1)
  | (Except.ok (_, sub1), db1, files1) =>
    (SubmitReply.okSubmission sub1.id sub1.submittedAt, db1, files1)

/-- Threshold computation of the cleanup handler `cleanupAnalytics`: no
usable days query keeps the default of 90 days; a present query string is
parsed by appending the hour suffix, so a numeric value `n` denotes `n`
hours and the threshold becomes `n / 24` truncated. -/
def cleanupDaysThreshold : Option Nat → Nat
  | none => 90
  | some hours => hours / 24

/-! ## Concrete fixtures used by witnesses and counterexamples -/

/-- The contact form schema of the README example: three required fields
and no configured actions. -/
def contactFormConfig : FormConfig :=
  ⟨"Contact", "Contact form",
   [⟨"name", "text", true, "", ""⟩,
    ⟨"email", "email", true, "", ""⟩,
    ⟨"message", "textarea", true, "", ""⟩],
   [], ⟨false, "", "", false⟩⟩

/-- A registry holding only the contact form. -/
def cfg0 : Config := ⟨[("contact", contactFormConfig)], "shared-secret"⟩

/-- A fixed collaborator environment for concrete evaluations. -/
def env0 : ActionEnv := ⟨fun _ _ => webhookResult, fun _ _ => webhookResult⟩

/-- A concrete submission for the contact form that lacks the required
email field. -/
def subW : FormSubmission :=
  ⟨"", "contact", [("name", Value.str "A")], "198.51.100.2", "curl", 1000, false, none, ""⟩

/-! ## Helper lemmas -/

/-- Closed form of the pipeline fold: the outcome list accumulates the
per-action results in order and the success flag is the conjunction. -/
theorem foldl_actions_eq (env : ActionEnv) (sub : FormSubmission)
    (l : List ActionConfig) (r : ProcessingResult) :
    l.foldl
      (fun r ac =>
        let a := executeAction env sub ac
        { r with
          actions := r.actions ++ [a]
          success := if a.success then r.success else false }) r
      = { r with
          actions := r.actions ++ l.map (executeAction env sub)
          success := r.success && (l.map (executeAction env sub)).all (fun a => a.success) } := by
  induction l generalizing r with
  | nil => simp
  | cons ac rest ih =>
    simp only [List.foldl_cons, List.map_cons, List.all_cons]
    rw [ih]
    cases h : (executeAction env sub ac).success <;>
      simp [h, List.append_assoc, Bool.and_assoc]

/-- Closed form of `ProcessActions`. -/
theorem processActions_spec (env : ActionEnv) (sub : FormSubmission)
    (fc : FormConfig) (now : Int) :
    ProcessActions env sub fc now
      = { submissionId := sub.id
          formId := sub.formId
          success := (fc.actions.map (executeAction env sub)).all (fun a => a.success)
          actions := fc.actions.map (executeAction env sub)
          processedAt := now } := by
  unfold ProcessActions
  rw [foldl_actions_eq]
  simp

/-- Searching for the first mapped hit over a guard is searching for the
first element satisfying the guard. -/
theorem findSome?_guard_eq {α β : Type} (p : α → Bool) (g : α → β) (l : List α) :
    l.findSome? (fun x => if p x then some (g x) else none) = (l.find? p).map g := by
  induction l with
  | nil => rfl
  | cons a t ih => cases h : p a <;> simp [List.findSome?_cons, List.find?_cons, h, ih]

/-- Closed form of the validator: it reports on the first required field
whose value is missing or empty. -/
theorem validateSubmission_eq (sub : FormSubmission) (fc : FormConfig) :
    validateSubmission sub fc
      = (fc.fields.find? (fun f => f.required && fieldMissing sub.data f.name)).map
          (fun f => "required field \x27" ++ f.name ++ "\x27 is missing") :=
  findSome?_guard_eq _ _ _

/-- A submission whose schema has a missing or empty required field is
rejected by `ProcessSubmission` with the validation message for the first
such field, and neither the table nor the backup directory changes. -/
theorem processSubmission_invalid (env : ActionEnv) (cfg : Config) (newId : String)
    (now : Int) (sub : FormSubmission) (db : SubmissionDB) (files : BackupFiles)
    (fc : FormConfig) (f : FieldConfig)
    (hform : lookupForm cfg sub.formId = some fc)
    (hfind : fc.fields.find? (fun fl => fl.required && fieldMissing sub.data fl.name) = some f) :
    ProcessSubmission env cfg newId now sub db files
      = (Except.error ("validation failed: required field \x27" ++ f.name ++ "\x27 is missing"),
         db, files) := by
  unfold ProcessSubmission
  by_cases hid : (sub.id == "") = true <;>
    simp [hid, hform, validateSubmission_eq, hfind] <;>
    rw [← String.append_assoc, ← String.append_assoc] <;> rfl

/-! ## Claim C1: the action pipeline -/

/-- Claim C1: for every form schema and submission, `ProcessActions`
returns exactly one outcome per configured action in the declared order,
its aggregate success is true exactly when every outcome succeeded, and
dispatch of an unknown action type yields a failed outcome with a
descriptive error instead of stopping the pipeline (each outcome is the
dispatch of its own action, independent of every other outcome). -/
theorem C1_pipeline_outcomes (env : ActionEnv) (sub : FormSubmission)
    (fc : FormConfig) (now : Int) :
    (ProcessActions env sub fc now).actions = fc.actions.map (executeAction env sub) ∧
    (ProcessActions env sub fc now).actions.length = fc.actions.length ∧
    ((ProcessActions env sub fc now).success = true ↔
      ∀ a ∈ (ProcessActions env sub fc now).actions, a.success = true) ∧
    (ProcessActions env sub fc now).processedAt = now ∧
    (ProcessActions env sub fc now).submissionId = sub.id ∧
    (ProcessActions env sub fc now).formId = sub.formId ∧
    (∀ ac : ActionConfig,
      ac.actionType ∉ (["google_play_add_tester", "send_email", "webhook", "log"] : List String) →
      executeAction env sub ac
        = ⟨ac.actionType, false, "Unknown action type",
           "Action type \x27" ++ ac.actionType ++ "\x27 is not supported"⟩) := by
  rw [processActions_spec]
  refine ⟨rfl, by simp, by simp [List.all_eq_true], rfl, rfl, rfl, ?_⟩
  intro ac h
  simp only [List.mem_cons, List.not_mem_nil, or_false, not_or] at h
  obtain ⟨h1, h2, h3, h4⟩ := h
  unfold executeAction
  split
  · exact absurd (by assumption) h1
  · exact absurd (by assumption) h2
  · exact absurd (by assumption) h3
  · exact absurd (by assumption) h4
  · rfl

/-- Witness for C1 at a concrete unknown action type. -/
theorem C1_pipeline_outcomes_witness :
    executeAction env0 subW ⟨"frobnicate", []⟩
      = ⟨"frobnicate", false, "Unknown action type",
         "Action type \x27frobnicate\x27 is not supported"⟩ :=
  (C1_pipeline_outcomes env0 subW contactFormConfig 0).2.2.2.2.2.2
    ⟨"frobnicate", []⟩ (by decide)

/-! ## Claim C2: required-field rejection before persistence -/

/-- Claim C2: a submission whose schema marks a field required that is
absent or empty in the data map is rejected with a validation error
naming the first such field, and no database row or backup file is
written. -/
theorem C2_validation_before_persistence (env : ActionEnv) (cfg : Config)
    (newId : String) (now : Int) (sub : FormSubmission) (db : SubmissionDB)
    (files : BackupFiles) (fc : FormConfig) (f : FieldConfig)
    (hform : lookupForm cfg sub.formId = some fc)
    (hfind : fc.fields.find? (fun fl => fl.required && fieldMissing sub.data fl.name) = some f) :
    (ProcessSubmission env cfg newId now sub db files).1
      = Except.error ("validation failed: required field \x27" ++ f.name ++ "\x27 is missing") ∧
    (ProcessSubmission env cfg newId now sub db files).2.1 = db ∧
    (ProcessSubmission env cfg newId now sub db files).2.2 = files := by
  rw [processSubmission_invalid env cfg newId now sub db files fc f hform hfind]
  exact ⟨rfl, rfl, rfl⟩

/-- Witness for C2: the contact form submission lacking its required
email field is rejected and writes nothing. -/
theorem C2_validation_before_persistence_witness :
    (ProcessSubmission env0 cfg0 "id-1" 1000 subW [] []).1
      = Except.error "validation failed: required field \x27email\x27 is missing" ∧
    (ProcessSubmission env0 cfg0 "id-1" 1000 subW [] []).2.1 = [] ∧
    (ProcessSubmission env0 cfg0 "id-1" 1000 subW [] []).2.2 = [] :=
  C2_validation_before_persistence env0 cfg0 "id-1" 1000 subW [] []
    contactFormConfig ⟨"email", "email", true, "", ""⟩ (by decide) (by decide)

/-! ## Claim C3: heartbeat ingestion is an upsert keyed on serverHash -/

/-- Number of analytics rows carrying a given server hash. -/
def hashCount (db : AnalyticsDB) (h : String) : Nat :=
  (db.filter (fun r => r.serverHash == h)).length

/-- The heartbeat row update never changes the server hash column. -/
theorem heartbeatUpdateRow_serverHash (req : AnalyticsRequest) (now : Int)
    (r : AnalyticsRecord) : (heartbeatUpdateRow req now r).serverHash = r.serverHash := by
  unfold heartbeatUpdateRow
  split <;> rfl

/-- The heartbeat row update preserves every per-hash row count. -/
theorem hashCount_map_update (req : AnalyticsRequest) (now : Int) (db : AnalyticsDB)
    (h : String) : hashCount (db.map (heartbeatUpdateRow req now)) h = hashCount db h := by
  unfold hashCount
  induction db with
  | nil => rfl
  | cons r t ih =>
    simp only [List.map_cons, List.filter_cons, heartbeatUpdateRow_serverHash]
    cases hc : (r.serverHash == h) <;> simp [hc, ih]

set_option maxHeartbeats 1000000 in
/-- Claim C3: heartbeat ingestion is an upsert keyed on the server hash:
an unknown hash appends a fresh record whose first-seen and last-seen
timestamps are both now and whose stored address is the SHA-256 hash of
the source address, never the raw address; a known hash rewrites only the
version and last-seen columns of the matching rows, leaving first-seen
(and id, hash, address columns, and all other rows) untouched; per-hash
row counts of other hashes never change, and a database unique per server
hash stays unique, so distinct hashes always occupy distinct rows. -/
theorem C3_heartbeat_upsert (req : AnalyticsRequest) (ip : String) (now : Int)
    (newId : String) (db : AnalyticsDB) :
    (lookupServer db req.serverHash = none →
      ProcessAnalytics req ip now newId db
        = db ++ [⟨newId, req.serverHash, req.version, now, now, sha256Hex ip⟩]) ∧
    (∀ r₀, lookupServer db req.serverHash = some r₀ →
      ProcessAnalytics req ip now newId db = db.map (heartbeatUpdateRow req now)) ∧
    (∀ r : AnalyticsRecord,
      (heartbeatUpdateRow req now r).firstSeen = r.firstSeen ∧
      (heartbeatUpdateRow req now r).id = r.id ∧
      (heartbeatUpdateRow req now r).serverHash = r.serverHash ∧
      (heartbeatUpdateRow req now r).ipHash = r.ipHash) ∧
    (∀ r : AnalyticsRecord, r.serverHash ≠ req.serverHash → heartbeatUpdateRow req now r = r) ∧
    (∀ r : AnalyticsRecord, r.serverHash = req.serverHash →
      (heartbeatUpdateRow req now r).version = req.version ∧
      (heartbeatUpdateRow req now r).lastSeen = now) ∧
    (∀ h, h ≠ req.serverHash →
      hashCount (ProcessAnalytics req ip now newId db) h = hashCount db h) ∧
    (hashCount db req.serverHash = 0 →
      hashCount (ProcessAnalytics req ip now newId db) req.serverHash = 1) ∧
    (hashCount db req.serverHash = 1 →
      hashCount (ProcessAnalytics req ip now newId db) req.serverHash = 1) := by
  have hrow : ∀ r : AnalyticsRecord,
      (heartbeatUpdateRow req now r).firstSeen = r.firstSeen ∧
      (heartbeatUpdateRow req now r).id = r.id ∧
      (heartbeatUpdateRow req now r).serverHash = r.serverHash ∧
      (heartbeatUpdateRow req now r).ipHash = r.ipHash := by
    intro r
    unfold heartbeatUpdateRow
    split <;> exact ⟨rfl, rfl, rfl, rfl⟩
  have hframe : ∀ r : AnalyticsRecord, r.serverHash ≠ req.serverHash →
      heartbeatUpdateRow req now r = r := by
    intro r hr
    unfold heartbeatUpdateRow
    simp [hr]
  have hset : ∀ r : AnalyticsRecord, r.serverHash = req.serverHash →
      (heartbeatUpdateRow req now r).version = req.version ∧
      (heartbeatUpdateRow req now r).lastSeen = now := by
    intro r hr
    unfold heartbeatUpdateRow
    simp [hr]
  have hins : lookupServer db req.serverHash = none →
      ProcessAnalytics req ip now newId db
        = db ++ [⟨newId, req.serverHash, req.version, now, now, sha256Hex ip⟩] := by
    intro hl
    unfold ProcessAnalytics
    rw [hl]
  have hupd : ∀ r₀, lookupServer db req.serverHash = some r₀ →
      ProcessAnalytics req ip now newId db = db.map (heartbeatUpdateRow req now) := by
    intro r₀ hl
    unfold ProcessAnalytics
    rw [hl]
  refine ⟨hins, hupd, hrow, hframe, hset, ?_, ?_, ?_⟩
  · intro h hne
    cases hl : lookupServer db req.serverHash with
    | none =>
      rw [hins hl]
      unfold hashCount
      have : (req.serverHash == h) = false := by
        simp [beq_eq_false_iff_ne]
        exact fun he => hne he.symm
      simp [List.filter_append, this]
    | some r₀ =>
      rw [hupd r₀ hl, hashCount_map_update]
  · intro h0
    have hall : ∀ r ∈ db, ¬((fun r : AnalyticsRecord => r.serverHash == req.serverHash) r = true) := by
      have hnil : db.filter (fun r => r.serverHash == req.serverHash) = [] :=
        List.length_eq_zero.mp h0
      exact fun r hr hp => by
        have : r ∈ db.filter (fun x => x.serverHash == req.serverHash) :=
          List.mem_filter.mpr ⟨hr, hp⟩
        simp [hnil] at this
    have hl : lookupServer db req.serverHash = none :=
      List.find?_eq_none.mpr hall
    rw [hins hl]
    unfold hashCount
    have hnil : db.filter (fun r => r.serverHash == req.serverHash) = [] :=
      List.length_eq_zero.mp h0
    simp [List.filter_append, hnil]
  · intro h1
    cases hl : lookupServer db req.serverHash with
    | none =>
      exfalso
      have hall := List.find?_eq_none.mp hl
      have hnil : db.filter (fun r => r.serverHash == req.serverHash) = [] :=
        List.filter_eq_nil_iff.mpr hall
      rw [hashCount, hnil] at h1
      simp at h1
    | some r₀ =>
      rw [hupd r₀ hl, hashCount_map_update]
      exact h1

/-- Witness for C3: a first heartbeat inserts a record whose timestamps
coincide and whose address column is the hash of the source address. -/
theorem C3_heartbeat_upsert_witness :
    ProcessAnalytics ⟨"srv-1", "0.7.2", "sig"⟩ "203.0.113.7" 100 "rec-1" []
      = [⟨"rec-1", "srv-1", "0.7.2", 100, 100, sha256Hex "203.0.113.7"⟩] :=
  (C3_heartbeat_upsert ⟨"srv-1", "0.7.2", "sig"⟩ "203.0.113.7" 100 "rec-1" []).1 (by rfl)

/-! ## Claim C4: heartbeat signature verification -/

/-- Big-endian serialisations have their requested width. -/
theorem beBytes_length (k : Nat) : ∀ n, (beBytes k n).length = k := by
  induction k with
  | zero => intro n; rfl
  | succ k ih => intro n; simp [beBytes, ih]

/-- A SHA-256 digest always has 32 bytes. -/
theorem sha256Bytes_length (m : List Nat) : (sha256Bytes m).length = 32 := by
  simp [sha256Bytes, digestBytes, beBytes_length]

/-- Hex encoding doubles the byte count. -/
theorem hexEncode_length (bs : List Nat) : (hexEncode bs).length = 2 * bs.length := by
  show (bs.foldr (fun b acc => hexDigit (b / 16) :: hexDigit (b % 16) :: acc) []).length
    = 2 * bs.length
  induction bs with
  | nil => rfl
  | cons b t ih => simp [ih]; omega

/-- The signature the service expects is always 64 characters long. -/
theorem expectedSignature_length (secret : String) (req : AnalyticsRequest) (ip : String) :
    (expectedSignature secret req ip).length = 64 := by
  simp [expectedSignature, hexEncode_length, hmacSha256, sha256Bytes_length]

/-- Claim C4: signature verification succeeds exactly when the supplied
signature equals the hex HMAC-SHA256 of serverHash, version and source
address concatenated, under the shared secret; any request carrying a
different signature string (in particular one differing in a single bit)
is rejected with a false return. -/
theorem C4_verify_signature (secret : String) (req : AnalyticsRequest) (ip : String) :
    (VerifySignature secret req ip = true ↔
      req.signature
        = hexEncode (hmacSha256 (strBytes secret)
            (strBytes (req.serverHash ++ req.version ++ ip)))) ∧
    (∀ s, s ≠ expectedSignature secret req ip →
      VerifySignature secret { req with signature := s } ip = false) := by
  constructor
  · simp [VerifySignature, expectedSignature]
  · intro s hs
    simpa [VerifySignature, expectedSignature] using hs

/-- Witness for C4: an empty signature is rejected, because the expected
signature always has 64 characters. -/
theorem C4_verify_signature_witness :
    VerifySignature "shared-secret" ⟨"srv-1", "0.7.2", ""⟩ "203.0.113.7" = false :=
  (C4_verify_signature "shared-secret" ⟨"srv-1", "0.7.2", ""⟩ "203.0.113.7").2 ""
    (fun h => by
      have hl := congrArg String.length h
      rw [expectedSignature_length] at hl
      simp at hl)

/-! ## Claim C5: the retention sweep -/

/-- Splitting a list by a Boolean predicate preserves its length. -/
theorem length_filter_split {α : Type} (l : List α) (p : α → Bool) :
    (l.filter p).length + (l.filter (fun a => !(p a))).length = l.length := by
  induction l with
  | nil => rfl
  | cons a t ih => cases h : p a <;> simp [List.filter_cons, h] <;> omega

/-- Claim C5: the sweep deletes exactly the records whose last-seen time
predates now minus the threshold in days — every other record survives —
and returns the number removed; the handler threshold defaults to 90 days
and is overridden per invocation by the days query parameter. -/
theorem C5_retention_sweep (db : AnalyticsDB) (d : Nat) (now : Int) :
    (CleanupInactiveServers d now db).1
      = (db.filter (fun r => r.lastSeen < now - (d : Int) * 86400)).length ∧
    (CleanupInactiveServers d now db).2
      = db.filter (fun r => !(decide (r.lastSeen < now - (d : Int) * 86400))) ∧
    (CleanupInactiveServers d now db).1 + (CleanupInactiveServers d now db).2.length
      = db.length ∧
    (∀ r ∈ db, r.lastSeen < now - (d : Int) * 86400 →
      r ∉ (CleanupInactiveServers d now db).2) ∧
    (∀ r ∈ db, ¬(r.lastSeen < now - (d : Int) * 86400) →
      r ∈ (CleanupInactiveServers d now db).2) ∧
    cleanupDaysThreshold none = 90 ∧
    (∀ n, cleanupDaysThreshold (some n) = n / 24) := by
  refine ⟨rfl, rfl, ?_, ?_, ?_, rfl, fun n => rfl⟩
  · exact length_filter_split db (fun r => decide (r.lastSeen < now - (d : Int) * 86400))
  · intro r hr hlt hmem
    have := (List.mem_filter.mp hmem).2
    simp [hlt] at this
  · intro r hr hge
    exact List.mem_filter.mpr ⟨hr, by simp [hge]⟩

/-- An analytics record last seen at time zero. -/
def recOld : AnalyticsRecord := ⟨"a", "srv-old", "1.0", 0, 0, "x"⟩

/-- Witness for C5: a record over the 90-day threshold is removed. -/
theorem C5_retention_sweep_witness :
    recOld ∉ (CleanupInactiveServers 90 10000000 [recOld]).2 :=
  (C5_retention_sweep [recOld] 90 10000000).2.2.2.1 recOld (by decide) (by decide)

/-! ## Claim C6: the analytics summary -/

/-- Claim C6: the summary counts all records in totalServers, counts only
records last seen inside the fixed 30-day window in activeServers, and
tallies versions only among those active records; a record last seen 31
days ago is counted by totalServers but is absent from the active set
that activeServers and the version breakdown count. -/
theorem C6_summary (now : Int) (db : AnalyticsDB) :
    (GetAnalyticsSummary now db).totalServers = db.length ∧
    (GetAnalyticsSummary now db).activeServers
      = (db.filter (fun r => now - 30 * 86400 < r.lastSeen)).length ∧
    (∀ v, (GetAnalyticsSummary now db).versionBreakdown v
      = ((db.filter (fun r => now - 30 * 86400 < r.lastSeen)).filter
          (fun r => r.version == v)).length) ∧
    (∀ r ∈ db, r.lastSeen ≤ now - 31 * 86400 →
      r ∉ db.filter (fun x => now - 30 * 86400 < x.lastSeen)) ∧
    (∀ r ∈ db, r.lastSeen ≤ now - 31 * 86400 → ∀ v,
      r ∉ (db.filter (fun x => now - 30 * 86400 < x.lastSeen)).filter
            (fun x => x.version == v)) := by
  have hout : ∀ r ∈ db, r.lastSeen ≤ now - 31 * 86400 →
      r ∉ db.filter (fun x => now - 30 * 86400 < x.lastSeen) := by
    intro r hr hle hmem
    have := (List.mem_filter.mp hmem).2
    simp at this
    omega
  refine ⟨rfl, rfl, fun v => rfl, hout, ?_⟩
  intro r hr hle v hmem
  exact hout r hr hle (List.mem_filter.mp hmem).1

/-- An analytics record whose last heartbeat was exactly 31 days before
the summary time used by the witness. -/
def recOld31 : AnalyticsRecord := ⟨"b", "srv-31", "1.0", 0, 0, "y"⟩

/-- Witness for C6: a record last seen 31 days ago is outside the active
set. -/
theorem C6_summary_witness :
    recOld31 ∉ [recOld31].filter (fun x => (2678400 : Int) - 30 * 86400 < x.lastSeen) :=
  (C6_summary 2678400 [recOld31]).2.2.2.1 recOld31 (by decide) (by decide)

/-! ## Claim C7: reprocessing -/

/-- Folding a pipeline result back in always records its success flag. -/
theorem applyResult_processed (s : FormSubmission) (r : ProcessingResult) :
    (applyResult s r).processed = r.success := by
  unfold applyResult
  split <;> simp [*]

/-- Folding a pipeline result back in always records its timestamp. -/
theorem applyResult_processedAt (s : FormSubmission) (r : ProcessingResult) :
    (applyResult s r).processedAt = some r.processedAt := by
  unfold applyResult
  split <;> simp [*]

/-- The recorded error is empty on success (keeping the prior value) and
the concatenated action errors on failure. -/
theorem applyResult_error (s : FormSubmission) (r : ProcessingResult) :
    (applyResult s r).error = if r.success then s.error else concatErrors r.actions := by
  unfold applyResult
  split <;> simp [*]

/-- Folding a pipeline result back in touches no identity field. -/
theorem applyResult_frame (s : FormSubmission) (r : ProcessingResult) :
    (applyResult s r).id = s.id ∧ (applyResult s r).formId = s.formId ∧
    (applyResult s r).data = s.data := by
  unfold applyResult
  split <;> exact ⟨rfl, rfl, rfl⟩

/-- Claim C7: reprocessing resets the status fields and re-runs every
configured action from scratch — the outcome is independent of the prior
processed, processedAt and error values, the new result carries one
outcome per configured action with none skipped, and the stored fields
afterwards reflect the new aggregate result. -/
theorem C7_reprocess_from_scratch (env : ActionEnv) (cfg : Config) (now : Int)
    (sub : FormSubmission) (db : SubmissionDB) (fc : FormConfig)
    (hform : lookupForm cfg sub.formId = some fc) :
    (∀ p pa e, ReprocessSubmission env cfg now
        { sub with processed := p, processedAt := pa, error := e } db
      = ReprocessSubmission env cfg now sub db) ∧
    (∃ result sub1 db1,
      ReprocessSubmission env cfg now sub db = Except.ok (result, sub1, db1) ∧
      result.actions = fc.actions.map (executeAction env
        { sub with processed := false, processedAt := none, error := "" }) ∧
      result.processedAt = now ∧
      sub1.processed = result.success ∧
      sub1.processedAt = some result.processedAt ∧
      sub1.error = (if result.success then "" else concatErrors result.actions) ∧
      sub1.id = sub.id ∧ sub1.formId = sub.formId ∧ sub1.data = sub.data ∧
      db1 = db.map (updateRow sub1)) := by
  refine ⟨fun p pa e => rfl, ?_⟩
  simp only [ReprocessSubmission, hform, updateSubmission]
  refine ⟨_, _, _, rfl, ?_, ?_, ?_, ?_, ?_, ?_, ?_, ?_, rfl⟩
  · simp [processActions_spec]
  · simp [processActions_spec]
  · exact applyResult_processed _ _
  · exact applyResult_processedAt _ _
  · exact applyResult_error _ _
  · exact (applyResult_frame _ _).1
  · exact (applyResult_frame _ _).2.1
  · exact (applyResult_frame _ _).2.2

/-- Witness for C7: the result of reprocessing does not depend on the
prior status fields. -/
theorem C7_reprocess_from_scratch_witness :
    ReprocessSubmission env0 cfg0 5
        { subW with processed := true, processedAt := some 3, error := "old" } []
      = ReprocessSubmission env0 cfg0 5 subW [] :=
  (C7_reprocess_from_scratch env0 cfg0 5 subW [] contactFormConfig (by decide)).1
    true (some 3) "old"

/-! ## Claim C8: the store update (corrected) -/

/-- A submission row used as the update argument in the C8 fixtures. -/
def subB : FormSubmission := ⟨"row-2", "contact", [], "", "", 0, true, some 7, "boom"⟩

/-- A stored submission row whose id differs from the C8 update target. -/
def rowA : FormSubmission := ⟨"row-1", "contact", [], "", "", 0, false, none, ""⟩

/-- Counterexample for C8 as stated: updating a table that has no row
with the submission id succeeds as a no-op instead of failing. -/
theorem C8_update_missing_row_counterexample :
    updateSubmission ([] : SubmissionDB) subB = Except.ok ([] : SubmissionDB) ∧
    (updateSubmission ([] : SubmissionDB) subB).isOk = true :=
  ⟨rfl, rfl⟩

/-- Claim C8 as amended: the update rewrites only the processed,
processedAt and error fields of the rows whose id matches, leaves every
other field and row unchanged — and when no row matches it succeeds
without modifying anything rather than failing. -/
theorem C8_update_frame (db : SubmissionDB) (sub : FormSubmission) :
    updateSubmission db sub = Except.ok (db.map (updateRow sub)) ∧
    (∀ r : FormSubmission, r.id ≠ sub.id → updateRow sub r = r) ∧
    (∀ r : FormSubmission,
      (updateRow sub r).id = r.id ∧
      (updateRow sub r).formId = r.formId ∧
      (updateRow sub r).data = r.data ∧
      (updateRow sub r).ipAddress = r.ipAddress ∧
      (updateRow sub r).userAgent = r.userAgent ∧
      (updateRow sub r).submittedAt = r.submittedAt) ∧
    (∀ r : FormSubmission, r.id = sub.id →
      (updateRow sub r).processed = sub.processed ∧
      (updateRow sub r).processedAt = sub.processedAt ∧
      (updateRow sub r).error = sub.error) ∧
    ((∀ r ∈ db, r.id ≠ sub.id) → updateSubmission db sub = Except.ok db) := by
  refine ⟨rfl, ?_, ?_, ?_, ?_⟩
  · intro r hr
    unfold updateRow
    simp [hr]
  · intro r
    unfold updateRow
    split <;> exact ⟨rfl, rfl, rfl, rfl, rfl, rfl⟩
  · intro r hr
    unfold updateRow
    simp [hr]
  · intro hnone
    unfold updateSubmission
    have : db.map (updateRow sub) = db := by
      induction db with
      | nil => rfl
      | cons r t ih =>
        have hr : updateRow sub r = r := by
          unfold updateRow
          simp [hnone r (List.mem_cons_self r t)]
        simp only [List.map_cons, hr]
        rw [ih (fun x hx => hnone x (List.mem_cons_of_mem r hx))]
    rw [this]

/-- Witness for C8: an update whose id matches no row leaves the single
stored row unchanged and reports success. -/
theorem C8_update_frame_witness :
    updateSubmission [rowA] subB = Except.ok [rowA] :=
  (C8_update_frame [rowA] subB).2.2.2.2 (by decide)

/-! ## Claim C9: the HTTP status of a validation failure (corrected) -/

/-- Status code carried by a submit-form reply, when it is an error. -/
def replyCode : SubmitReply → Option Nat
  | SubmitReply.failure e => some e.code
  | SubmitReply.okSubmission _ _ => none

/-- Counterexample for C9 as stated: the README contact form submitted
without its required email field is answered with status 500, not 400. -/
theorem C9_submit_status_counterexample :
    replyCode (submitForm env0 cfg0 "id-1" 1000 ⟨"contact", [("name", Value.str "A")]⟩
        "203.0.113.9" "ua" [] []).1 = some 500 ∧
    replyCode (submitForm env0 cfg0 "id-1" 1000 ⟨"contact", [("name", Value.str "A")]⟩
        "203.0.113.9" "ua" [] []).1 ≠ some 400 := by
  constructor
  · decide
  · decide

/-- Claim C9 as amended: a submission request missing a required field is
answered with the shared error envelope, success false and code 500 (the
handler maps every processing failure, validation included, to 500), the
error text citing the missing field; no row or backup file is written. -/
theorem C9_validation_error_envelope (env : ActionEnv) (cfg : Config) (newId : String)
    (now : Int) (req : SubmissionRequest) (ip ua : String) (db : SubmissionDB)
    (files : BackupFiles) (fc : FormConfig) (f : FieldConfig)
    (hform : lookupForm cfg req.formId = some fc)
    (hfind : fc.fields.find? (fun fl => fl.required && fieldMissing req.data fl.name) = some f) :
    submitForm env cfg newId now req ip ua db files
      = (SubmitReply.failure
          ⟨false, "Failed to process submission: validation failed: required field \x27"
                    ++ f.name ++ "\x27 is missing", 500⟩, db, files) := by
  simp only [submitForm]
  rw [processSubmission_invalid env cfg newId now _ db files fc f hform hfind]
  show (SubmitReply.failure
      ⟨false, "Failed to process submission: "
        ++ ("validation failed: required field \x27" ++ f.name ++ "\x27 is missing"), 500⟩,
    db, files) = _
  rw [← String.append_assoc, ← String.append_assoc]
  rfl

/-- Witness for C9 as amended, at the README contact form. -/
theorem C9_validation_error_envelope_witness :
    submitForm env0 cfg0 "id-1" 1000 ⟨"contact", [("name", Value.str "B")]⟩
        "203.0.113.9" "ua" [] []
      = (SubmitReply.failure
          ⟨false,
           "Failed to process submission: validation failed: required field \x27email\x27 is missing",
           500⟩, [], []) :=
  C9_validation_error_envelope env0 cfg0 "id-1" 1000 ⟨"contact", [("name", Value.str "B")]⟩
    "203.0.113.9" "ua" [] [] contactFormConfig ⟨"email", "email", true, "", ""⟩
    (by decide) (by decide)

/-! ## Claim C10: what counts as a missing required value -/

/-- Claim C10: the validator treats a required field as missing exactly
when its key is absent or its value is the empty string; any non-string
value — the number zero, the boolean false, or null — passes, and a
schema whose required fields all pass validates the submission. -/
theorem C10_missing_iff_absent_or_empty (d : List (String × Value)) (n : String) :
    (fieldMissing d n = true ↔
      dataLookup d n = none ∨ dataLookup d n = some (Value.str "")) ∧
    (∀ v, dataLookup d n = some v → (∀ s, v ≠ Value.str s) → fieldMissing d n = false) ∧
    (dataLookup d n = some (Value.num 0) → fieldMissing d n = false) ∧
    (dataLookup d n = some (Value.boolean false) → fieldMissing d n = false) ∧
    (dataLookup d n = some Value.null → fieldMissing d n = false) ∧
    (∀ (sub : FormSubmission) (fc : FormConfig), sub.data = d →
      (∀ f ∈ fc.fields, f.required = true → fieldMissing d f.name = false) →
      validateSubmission sub fc = none) := by
  refine ⟨?_, ?_, ?_, ?_, ?_, ?_⟩
  · cases h : dataLookup d n <;> simp [fieldMissing, h]
  · intro v hv hne
    simp [fieldMissing, hv, beq_eq_false_iff_ne]
    exact hne ""
  · intro h
    simp [fieldMissing, h]
  · intro h
    simp [fieldMissing, h]
  · intro h
    simp [fieldMissing, h]
  · intro sub fc hdata hall
    rw [validateSubmission_eq]
    have : fc.fields.find? (fun f => f.required && fieldMissing sub.data f.name) = none := by
      refine List.find?_eq_none.mpr ?_
      intro f hf hp
      rw [Bool.and_eq_true] at hp
      have := hall f hf hp.1
      rw [hdata] at hp
      rw [this] at hp
      exact Bool.false_ne_true hp.2
    rw [this]
    rfl

/-- Witness for C10: a required field carrying the number zero passes. -/
theorem C10_missing_iff_absent_or_empty_witness :
    fieldMissing [("age", Value.num 0)] "age" = false :=
  (C10_missing_iff_absent_or_empty [("age", Value.num 0)] "age").2.2.1 (by decide)

end PinepodsAdmin
